import Mathlib

/-!
Verification development for the duplicate-question-detector UI
(`QuestionForm` / `QuestionResults` components).

The TypeScript components are embedded as pure Lean functions:

* JavaScript strings are `String` (lists of characters); `String.trim`,
  `||` on strings, and `split(/\n\s*\n/)` are modelled explicitly.
* React state updates are modelled as explicit state-passing; the
  `handleSubmit` handler becomes a function from the form state and the
  server's response to the resulting state plus the request it issued.
* JavaScript numbers that hold similarity scores are modelled as
  rationals (the data-model contract keeps them in `[0,1]`), and
  `toFixed(2)` as decimal rounding (half away from zero on this domain,
  matching the ECMAScript rule for nonnegative values).
* `null` / `undefined` / number distinctions that matter to the
  renderer are modelled by an explicit three-valued type.
-/

namespace DupUI

/-! ### JavaScript string primitives -/

/-- Whitespace class used by `String.trim` and `\s` (core ASCII subset). -/
def isWS (c : Char) : Bool :=
  c == ' ' || c == '\t' || c == '\n' || c == '\r' || c == '\x0b' || c == '\x0c'

/-- JS `String.prototype.trim` on a character list. -/
def trimChars (l : List Char) : List Char :=
  ((l.dropWhile isWS).reverse.dropWhile isWS).reverse

/-- JS `String.prototype.trim`. -/
def strTrim (s : String) : String := ⟨trimChars s.data⟩

/-- JS `a || b` for strings: the empty string is falsy. -/
def jsOrStr (a b : String) : String := if a == "" then b else a

/-- JS `a || b` where `a` may be `null`/`undefined` (modelled `none`). -/
def jsOrOpt (a : Option String) (b : String) : String :=
  match a with
  | some s => jsOrStr s b
  | none => b

/-! ### The paste splitter of `handleSubmit`

`pastedQuestions.split(/\n\s*\n/)`: the regex engine repeatedly finds the
leftmost match of `\n\s*\n`; the greedy `\s*` with backtracking makes each
match run from a line break to the last line break of the maximal
whitespace run that follows it. -/

/-- Index of the last `'\n'` in a character list, if any. -/
def lastNlIdx : List Char → Option Nat
  | [] => none
  | c :: cs =>
    match lastNlIdx cs with
    | some i => some (i + 1)
    | none => if c == '\n' then some 0 else none

/-- Remainder of the input after matching `\s*\n` (greedy, with
backtracking) at the start of `cs`, which follows an initial `'\n'`.
`none` when the regex does not match here. -/
def sepEnd (cs : List Char) : Option (List Char) :=
  let run := cs.takeWhile isWS
  match lastNlIdx run with
  | some i => some (run.drop (i + 1) ++ cs.dropWhile isWS)
  | none => none

/-- Fuelled splitter implementing JS `split(/\n\s*\n/)`: scan left to
right; at each `'\n'` try to complete a separator match via `sepEnd`.
The fuel only serves structural recursion; `splitSep` supplies enough. -/
def splitSepF : Nat → List Char → List (List Char)
  | 0, l => [l]
  | _ + 1, [] => [[]]
  | fuel + 1, c :: cs =>
    if c == '\n' then
      match sepEnd cs with
      | some rest => [] :: splitSepF fuel rest
      | none => (splitSepF fuel cs).modifyHead (c :: ·)
    else (splitSepF fuel cs).modifyHead (c :: ·)

/-- JS `String.prototype.split(/\n\s*\n/)` on a character list. -/
def splitSep (l : List Char) : List (List Char) := splitSepF l.length l

/-- JS `replace(/\n/g, ' ')`. -/
def nlToSpace (l : List Char) : List Char :=
  l.map fun c => if c == '\n' then ' ' else c

/-- The full paste pipeline of `handleSubmit`:
`split(/\n\s*\n/).map(q => q.trim().replace(/\n/g, ' ')).filter(q => q !== '')`. -/
def splitPastedChars (l : List Char) : List (List Char) :=
  ((splitSep l).map fun u => nlToSpace (trimChars u)).filter fun u => !u.isEmpty

/-- String-level paste pipeline. -/
def splitPastedStr (s : String) : List String :=
  (splitPastedChars s.data).map fun u => ⟨u⟩

/-! ### The splitter the spec sentence describes

A second definition written from the spec's words — "split … exactly at
runs of two or more consecutive line breaks" — to be compared with the
source pipeline above. -/

/-- Fuelled splitter that splits exactly at maximal runs of two or more
consecutive `'\n'` characters, as the spec sentence states. -/
def splitNlRunsF : Nat → List Char → List (List Char)
  | 0, l => [l]
  | _ + 1, [] => [[]]
  | fuel + 1, c :: cs =>
    if c == '\n' && !(cs.takeWhile fun d => d == '\n').isEmpty then
      [] :: splitNlRunsF fuel (cs.dropWhile fun d => d == '\n')
    else (splitNlRunsF fuel cs).modifyHead (c :: ·)

/-- Split exactly at maximal runs of two or more consecutive line breaks. -/
def splitNlRuns (l : List Char) : List (List Char) := splitNlRunsF l.length l

/-- Spec-described paste pipeline: the claimed splitter followed by the
same per-unit normalisation as the code. -/
def specSplitPastedStr (s : String) : List String :=
  (((splitNlRuns s.data).map fun u => nlToSpace (trimChars u)).filter
    fun u => !u.isEmpty).map fun u => ⟨u⟩

/-- Two adjacent characters "mix" whitespace when exactly one of them is
a line break and the other is some other whitespace character. -/
def mixedPair (a b : Char) : Bool :=
  (a == '\n' && isWS b && b != '\n') || (b == '\n' && isWS a && a != '\n')

/-- No line break in the list sits next to a non-line-break whitespace
character. On such inputs the two splitters agree. -/
def goodPairs : List Char → Bool
  | a :: b :: rest => !mixedPair a b && goodPairs (b :: rest)
  | _ => true

/-! ### Data model -/

/-- Value of the `similarityScore` field as seen by the renderer: the
field can be a number, `null` (its declared type is `number | null`) or
missing (`undefined`). Scores are modelled as rationals; the data-model
contract keeps them in `[0,1]`. -/
inductive ScoreVal where
  | undef
  | null
  | num (q : ℚ)
deriving DecidableEq

/-- A cell value of an export row: the `'#'` cell is a number, the
`'Question'` cell a string, and `rowData` values may be either. -/
inductive CellVal where
  | num (n : Nat)
  | str (s : String)
deriving DecidableEq

/-- The `QuestionResult` record returned by the backend. `rowData` is an
optional key-value record attached to spreadsheet uploads (a JS object:
keys in insertion order, values arbitrary). -/
structure QuestionResult where
  question : String
  isDuplicate : Bool
  mostSimilarQuestion : Option String
  similarityScore : ScoreVal
  rowData : Option (List (String × CellVal))
deriving DecidableEq

/-- A selected file: only its name and declared MIME type matter to the
client-side logic. -/
structure FileSel where
  name : String
  type : String
deriving DecidableEq

/-! ### `QuestionForm` state and handlers (src/unnamed/part_001) -/

/-- The form's React state (the pieces the handlers read and write;
`isSubmitting` and `uploadProgress` are transient flags that are false/0
in every idle state and are not part of the model). -/
structure FormState where
  questions : List String
  pastedQuestions : String
  file : Option FileSel
  error : Option String
deriving DecidableEq

/-- `handleAddQuestion`: appends an empty field while fewer than 5 exist. -/
def handleAddQuestion (qs : List String) : List String :=
  if qs.length < 5 then qs ++ [""] else qs

/-- `handleRemoveQuestion`: `questions.filter((_, i) => i !== index)`. -/
def handleRemoveQuestion (qs : List String) (i : Nat) : List String :=
  (qs.enum.filter fun p => p.1 != i).map Prod.snd

/-- MIME allow-list of `handleFileChange`. -/
def allowedTypes : List String :=
  ["application/vnd.ms-excel",
   "application/vnd.openxmlformats-officedocument.spreadsheetml.sheet"]

/-- Error message of `handleFileChange` for a disallowed type. -/
def excelTypeError : String := "Please upload an Excel file (.xls, .xlsx)."

/-- Result of a change event on the file input: the new `file` state,
the new `error` state, and whether the handler cleared the input
element's selection (`e.target.value = ''`). -/
structure FileChangeResult where
  file : Option FileSel
  error : Option String
  inputCleared : Bool
deriving DecidableEq

/-- `handleFileChange`: accept a selected file iff its declared type is
in the allow-list; otherwise surface a type-specific error, null the
file state and clear the input's selection. With no selected file the
handler does nothing. -/
def handleFileChange (file0 : Option FileSel) (error0 : Option String)
    (sel : Option FileSel) : FileChangeResult :=
  match sel with
  | none => ⟨file0, error0, false⟩
  | some f =>
    if allowedTypes.contains f.type then ⟨some f, none, false⟩
    else ⟨none, some excelTypeError, true⟩

/-- Server response to an HTTP request: either `.ok` with the parsed
body, or `.fail` carrying `err.response?.data?.error` (when the server
answered with an error body) and `err.message`. -/
inductive HttpOutcome (α : Type) where
  | ok (data : α)
  | fail (dataError : Option String) (message : String)

/-- Body of a `/upload` response. -/
structure UploadData where
  success : Bool
  error : Option String
  results : List QuestionResult

/-- Body of a `/check-batch` response. -/
structure BatchData where
  results : List QuestionResult

/-- How the server would answer each endpoint during one submission. -/
structure Server where
  uploadResp : HttpOutcome UploadData
  batchResp : HttpOutcome BatchData

/-- The HTTP request a submission issues, if any. -/
inductive Request where
  | upload (f : FileSel)
  | checkBatch (questions : List String)
deriving DecidableEq

/-- Outcome of running `handleSubmit`: the resulting form state, the
request that was issued (if any), and the results passed to `onSubmit`
(if the submission succeeded). -/
structure SubmitResult where
  state : FormState
  request : Option Request
  submitted : Option (List QuestionResult)

/-- `resetForm`: clears the file, the manual fields and the paste area. -/
def resetFormState (st : FormState) : FormState :=
  { st with file := none, questions := [""], pastedQuestions := "" }

/-- The `catch` clause of `handleSubmit`:
`err.response?.data?.error || err.message || 'An error occurred'`. -/
def catchError (dataError : Option String) (message : String) : String :=
  jsOrOpt dataError (jsOrStr message "An error occurred")

/-- File branch of `handleSubmit`: POST `/upload`; on an `ok` body check
`success`, surfacing `data.error || …` when false; `resetForm()` runs
after the check in both cases. An HTTP failure lands in `catch`. -/
def fileBranch (st : FormState) (f : FileSel) (resp : HttpOutcome UploadData) :
    SubmitResult :=
  match resp with
  | .ok d =>
    if d.success then
      { state := resetFormState st
        request := some (.upload f)
        submitted := some d.results }
    else
      let msg := jsOrOpt d.error "An error occurred while processing the file."
      { state := resetFormState { st with error := some msg }
        request := some (.upload f)
        submitted := none }
  | .fail de msg =>
    { state := { st with error := some (catchError de msg) }
      request := some (.upload f)
      submitted := none }

/-- Paste branch of `handleSubmit`: split the pasted block, throw a
validation error when no unit remains, otherwise POST `/check-batch`. -/
def pasteBranch (st : FormState) (resp : HttpOutcome BatchData) : SubmitResult :=
  let questionList := splitPastedStr st.pastedQuestions
  if questionList.isEmpty then
    let msg :=
      catchError none "Please enter at least one valid question, separated by double newlines."
    { state := { st with error := some msg }
      request := none
      submitted := none }
  else
    match resp with
    | .ok d =>
      { state := resetFormState st
        request := some (.checkBatch questionList)
        submitted := some d.results }
    | .fail de msg =>
      { state := { st with error := some (catchError de msg) }
        request := some (.checkBatch questionList)
        submitted := none }

/-- Manual branch of `handleSubmit`: filter blank fields, throw a
validation error when none remain, otherwise POST `/check-batch`. -/
def manualBranch (st : FormState) (resp : HttpOutcome BatchData) : SubmitResult :=
  let filteredQuestions := st.questions.filter fun q => strTrim q != ""
  if filteredQuestions.isEmpty then
    let msg :=
      catchError none "Please enter at least one question, paste questions, or upload a file."
    { state := { st with error := some msg }
      request := none
      submitted := none }
  else
    match resp with
    | .ok d =>
      { state := resetFormState st
        request := some (.checkBatch filteredQuestions)
        submitted := some d.results }
    | .fail de msg =>
      { state := { st with error := some (catchError de msg) }
        request := some (.checkBatch filteredQuestions)
        submitted := none }

/-- `handleSubmit`: clear the error, then dispatch on the active input
mode — file upload, pasted block (when its trim is non-empty), or the
manual fields. -/
def handleSubmit (st0 : FormState) (srv : Server) : SubmitResult :=
  let st := { st0 with error := none }
  match st.file with
  | some f => fileBranch st f srv.uploadResp
  | none =>
    if strTrim st.pastedQuestions != "" then pasteBranch st srv.batchResp
    else manualBranch st srv.batchResp

/-! ### `QuestionResults` renderer (src/src/components/QuestionResults.tsx,
src/unnamed/part_004, src/unnamed/part_005) -/

/-- Two-digit rendering of `n % 100` as produced by `toFixed(2)`. -/
def pad2 (n : Nat) : String :=
  if n < 10 then "0" ++ toString n else toString n

/-- JS `v.toFixed(2)` for the nonnegative values this UI formats
(similarity scores scaled by 100): the ECMAScript rule picks the integer
`n` with `n / 100` closest to `v`, taking the larger `n` on ties. -/
def toFixed2 (v : ℚ) : String :=
  let n := (⌊v * 100 + 1 / 2⌋).toNat
  toString (n / 100) ++ "." ++ pad2 (n % 100)

/-- `result.mostSimilarQuestion ?? 'another question'`. -/
def mostSimilarLabel (r : QuestionResult) : String :=
  match r.mostSimilarQuestion with
  | some q => q
  | none => "another question"

/-- Score text of the similar-questions notification
(`QuestionResults.tsx` lines 113-115 and part_004 lines 119-121):
`result.similarityScore !== undefined ? (score * 100).toFixed(2) + '%' : 'N/A'`.
A `null` score passes the `!== undefined` test and is coerced to `0` by
the multiplication. -/
def notifScoreLabel (s : ScoreVal) : String :=
  match s with
  | .undef => "N/A"
  | .null => toFixed2 ((0 : ℚ) * 100) ++ "%"
  | .num q => toFixed2 (q * 100) ++ "%"

/-- Score cell of the analysis table (`QuestionResults.tsx` lines
566-569): `score !== null && score !== undefined ? … : 'N/A'`. -/
def tableScoreLabel (s : ScoreVal) : String :=
  match s with
  | .undef => "N/A"
  | .null => "N/A"
  | .num q => toFixed2 (q * 100) ++ "%"

/-- One list item of the similar-questions notification. -/
def notifLine (r : QuestionResult) : String :=
  "\"" ++ r.question ++ "\" is similar to \"" ++ mostSimilarLabel r ++ "\" (" ++
    notifScoreLabel r.similarityScore ++ " similarity)."

/-- The notification body: one line per duplicate result. -/
def renderNotifLines (results : List QuestionResult) : List String :=
  (results.filter fun r => r.isDuplicate).map notifLine

/-- `results.filter((result) => !result.isDuplicate)`. -/
def uniqueQuestionsOf (results : List QuestionResult) : List QuestionResult :=
  results.filter fun r => !r.isDuplicate

/-! ### Client-side export (`handleDownload`, src/unnamed/part_004)

Export rows are JS objects built with an object-literal spread,
`{'#': index + 1, 'Question': q.question, ...rowData}`: a key of
`rowData` that collides with `'#'` or `'Question'` overwrites that
cell's value in place (JS object semantics: assignment to an existing
key keeps its original position, a new key is appended). -/

/-- JS object assignment `obj[k] = v`: overwrite in place when the key
exists, append otherwise. -/
def objSet (obj : List (String × CellVal)) (k : String) (v : CellVal) :
    List (String × CellVal) :=
  if obj.any fun p => p.1 == k then
    obj.map fun p => if p.1 == k then (p.1, v) else p
  else obj ++ [(k, v)]

/-- JS object spread `{...obj, ...kvs}` restricted to what the export
needs: assign the keys of `kvs` into `obj` in order. -/
def objSpread (obj : List (String × CellVal)) (kvs : List (String × CellVal)) :
    List (String × CellVal) :=
  kvs.foldl (fun acc p => objSet acc p.1 p.2) obj

/-- JS property lookup `obj[k]`. -/
def objGet (obj : List (String × CellVal)) (k : String) : Option CellVal :=
  (obj.find? fun p => p.1 == k).map Prod.snd

/-- One row of the generated worksheet:
`{'#': index + 1, 'Question': q.question, ...(q.rowData ?? {})}`. -/
def exportRow (idx : Nat) (q : QuestionResult) : List (String × CellVal) :=
  objSpread [("#", .num (idx + 1)), ("Question", .str q.question)] (q.rowData.getD [])

/-- Content of a client-side generated export file. -/
inductive ExportContent where
  | plainText (content : String)
  | spreadsheet (sheetName : String) (rows : List (List (String × CellVal)))
deriving DecidableEq

/-- Outcome of `handleDownload`: the generated file content (none on the
guard error), the `downloadError` state, and the HTTP request issued
(always none — the export is built from already-fetched data). -/
structure DownloadResult where
  content : Option ExportContent
  downloadError : Option String
  request : Option Request
deriving DecidableEq

/-- The `data` array of `handleDownload`:
`uniqueQuestions.map((q, index) => ({'#': index + 1, 'Question': q.question, ...}))`. -/
def exportRows (results : List QuestionResult) : List (List (String × CellVal)) :=
  (uniqueQuestionsOf results).enum.map fun p => exportRow p.1 p.2

/-- `handleDownload`: refuse when no unique question exists; otherwise
build the "Unique Questions" worksheet from the unique results, in
order, numbering rows from 1. -/
def handleDownload (results : List QuestionResult) : DownloadResult :=
  let uniq := uniqueQuestionsOf results
  if uniq.length == 0 then
    ⟨none, some "No unique questions to download.", none⟩
  else
    ⟨some (.spreadsheet "Unique Questions" (exportRows results)), none, none⟩

/-- Modelled from the spec: the plain-text export the spec describes
("Exporting N unique questions to plain text must yield N newline-joined
lines matching input order"). No such export exists in the source; this
definition follows the spec's words for comparison with `handleDownload`. -/
def specPlainTextExport (results : List QuestionResult) : String :=
  String.intercalate "\n" ((uniqueQuestionsOf results).map QuestionResult.question)

/-! ### Add/remove operations on the manual fields (C3) -/

/-- A user operation on the manual question fields. Removal is only
offered by the UI while more than one field exists (`questions.length >
1 && …` around the remove button), which the step function reflects. -/
inductive FormOp where
  | add
  | remove (i : Nat)

/-- One offered add/remove operation applied to the field list. -/
def formStep (qs : List String) : FormOp → List String
  | .add => handleAddQuestion qs
  | .remove i => if qs.length > 1 then handleRemoveQuestion qs i else qs

/-- The field list after a sequence of offered operations, starting from
the initial state `useState(['' ])`. -/
def runFormOps (ops : List FormOp) : List String := ops.foldl formStep [""]

/-! ### Reachable form states and input-mode exclusivity (C4) -/

/-- The slice of the form state the three input modes live in. -/
structure UiState where
  questions : List String
  pasted : String
  file : Option FileSel
deriving DecidableEq

/-- `questions.some((q) => q.trim() !== '')`. -/
def manualNonblank (st : UiState) : Bool :=
  st.questions.any fun q => strTrim q != ""

/-- `pastedQuestions.trim() !== ''`. -/
def pastedNonblank (st : UiState) : Bool := strTrim st.pasted != ""

/-- `isManualInputDisabled = isSubmitting || !!file || pastedQuestions.trim() !== ''`
(in idle states `isSubmitting` is false). -/
def isManualInputDisabled (st : UiState) : Bool :=
  st.file.isSome || pastedNonblank st

/-- `isFileUploadDisabled = isSubmitting || questions.some(…) || pastedQuestions.trim() !== ''`. -/
def isFileUploadDisabled (st : UiState) : Bool :=
  manualNonblank st || pastedNonblank st

/-- `isPastedInputDisabled = isSubmitting || !!file || questions.some(…)`. -/
def isPastedInputDisabled (st : UiState) : Bool :=
  st.file.isSome || manualNonblank st

/-- User-interface events that can change the three mode slices. The
guards are the `disabled` flags and render conditions of the component:
a disabled control does not fire. `submitReset` is a successful
submission (`resetForm`); `submitFailed` is a failed one (state kept). -/
inductive UiEvent where
  | typeManual (i : Nat) (v : String)
  | addQuestion
  | removeQuestion (i : Nat)
  | typePasted (v : String)
  | clearPasted
  | selectFile (sel : FileSel)
  | removeFile
  | submitReset
  | submitFailed

/-- One step of the UI. -/
def uiStep (st : UiState) : UiEvent → UiState
  | .typeManual i v =>
    if isManualInputDisabled st then st
    else { st with questions := st.questions.set i v }
  | .addQuestion =>
    if st.file.isNone && strTrim st.pasted == "" then
      { st with questions := handleAddQuestion st.questions }
    else st
  | .removeQuestion i =>
    if !isManualInputDisabled st && st.questions.length > 1 then
      { st with questions := handleRemoveQuestion st.questions i }
    else st
  | .typePasted v =>
    if isPastedInputDisabled st then st else { st with pasted := v }
  | .clearPasted => { st with pasted := "" }
  | .selectFile sel =>
    if isFileUploadDisabled st then st
    else { st with file := (handleFileChange st.file none (some sel)).file }
  | .removeFile => { st with file := none }
  | .submitReset => ⟨[""], "", none⟩
  | .submitFailed => st

/-- The initial form state: one empty field, empty paste area, no file. -/
def initUiState : UiState := ⟨[""], "", none⟩

/-- States the UI can reach from the initial state. -/
inductive Reachable : UiState → Prop where
  | init : Reachable initUiState
  | step : ∀ {st} (ev : UiEvent), Reachable st → Reachable (uiStep st ev)

/-- Number of input modes that are currently non-empty. -/
def modeCount (st : UiState) : Nat :=
  (if manualNonblank st then 1 else 0) + (if pastedNonblank st then 1 else 0) +
    (if st.file.isSome then 1 else 0)

/-! ## Helper lemmas -/

theorem dropWhile_length_le (p : Char → Bool) (l : List Char) :
    (l.dropWhile p).length ≤ l.length := by
  conv_rhs => rw [← List.takeWhile_append_dropWhile p l]
  rw [List.length_append]
  omega

theorem goodPairs_tail {a : Char} {l : List Char} (h : goodPairs (a :: l) = true) :
    goodPairs l = true := by
  cases l with
  | nil => rfl
  | cons b rest =>
    simp only [goodPairs, Bool.and_eq_true] at h
    exact h.2

theorem goodPairs_dropWhile (p : Char → Bool) :
    ∀ l : List Char, goodPairs l = true → goodPairs (l.dropWhile p) = true
  | [], _ => rfl
  | c :: cs, h => by
    rw [List.dropWhile_cons]
    split
    · exact goodPairs_dropWhile p cs (goodPairs_tail h)
    · exact h

theorem wsRun_all_nl : ∀ cs : List Char, goodPairs ('\n' :: cs) = true →
    cs.takeWhile isWS = cs.takeWhile (fun d => d == '\n') ∧
    cs.dropWhile isWS = cs.dropWhile (fun d => d == '\n')
  | [], _ => ⟨rfl, rfl⟩
  | c :: cs, h => by
    have hpair : mixedPair '\n' c = false := by
      simp only [goodPairs, Bool.and_eq_true, Bool.not_eq_true'] at h
      exact h.1
    by_cases hws : isWS c = true
    · have hc : c = '\n' := by
        by_contra hne
        simp [mixedPair, hws, hne] at hpair
      subst hc
      have htail : goodPairs ('\n' :: cs) = true := goodPairs_tail h
      have ih := wsRun_all_nl cs htail
      refine ⟨?_, ?_⟩
      · rw [List.takeWhile_cons, List.takeWhile_cons]
        simp [isWS, ih.1]
      · rw [List.dropWhile_cons, List.dropWhile_cons]
        simp [isWS, ih.2]
    · have hc : (c == '\n') = false := by
        cases hb : c == '\n'
        · rfl
        · have hcc : c = '\n' := by simpa using hb
          subst hcc
          exact absurd (by decide) hws
      rw [List.takeWhile_cons, List.takeWhile_cons, List.dropWhile_cons, List.dropWhile_cons]
      rw [Bool.not_eq_true] at hws
      simp [hws, hc]

theorem lastNlIdx_all_nl : ∀ l : List Char, (∀ c ∈ l, c = '\n') →
    lastNlIdx l = if l.isEmpty then none else some (l.length - 1)
  | [], _ => rfl
  | c :: cs, h => by
    have ih := lastNlIdx_all_nl cs fun d hd => h d (List.mem_cons_of_mem _ hd)
    have hc : c = '\n' := h c (List.mem_cons_self _ _)
    cases cs with
    | nil => simp [lastNlIdx, hc]
    | cons d ds =>
      rw [lastNlIdx, ih]
      simp [List.length_cons]

theorem splitSepF_eq_splitNlRunsF :
    ∀ (fuel : Nat) (l : List Char), l.length ≤ fuel → goodPairs l = true →
      splitSepF fuel l = splitNlRunsF fuel l
  | 0, _, _, _ => rfl
  | _ + 1, [], _, _ => rfl
  | fuel + 1, c :: cs, hlen, hgood => by
    have hcs : cs.length ≤ fuel := by
      simp only [List.length_cons] at hlen
      omega
    have htail : goodPairs cs = true := goodPairs_tail hgood
    by_cases hc : c = '\n'
    · subst hc
      obtain ⟨htake, hdrop⟩ := wsRun_all_nl cs hgood
      by_cases hrun : cs.takeWhile (fun d => d == '\n') = []
      · have hsep : sepEnd cs = none := by
          rw [sepEnd, htake, hrun]
          rfl
        have ih := splitSepF_eq_splitNlRunsF fuel cs hcs htail
        rw [splitSepF, splitNlRunsF, hsep, ih]
        simp [hrun]
      · have hall : ∀ d ∈ cs.takeWhile (fun d => d == '\n'), d = '\n' := fun d hd => by
          have := List.mem_takeWhile_imp hd
          simpa using this
        have hpos : 1 ≤ (cs.takeWhile fun d => d == '\n').length := by
          cases h' : cs.takeWhile (fun d => d == '\n') with
          | nil => exact absurd h' hrun
          | cons x xs => simp
        have hlen1 : (cs.takeWhile fun d => d == '\n').length - 1 + 1 =
            (cs.takeWhile fun d => d == '\n').length := by
          omega
        have hnotempty : ¬((cs.takeWhile fun d => d == '\n').isEmpty = true) := by
          simpa [List.isEmpty_iff] using hrun
        have hsep : sepEnd cs = some (cs.dropWhile (fun d => d == '\n')) := by
          rw [sepEnd, htake, lastNlIdx_all_nl _ hall, if_neg hnotempty]
          simp only [hlen1, List.drop_length, hdrop, List.nil_append]
        have hdlen : (cs.dropWhile fun d => d == '\n').length ≤ fuel :=
          le_trans (dropWhile_length_le (fun d => d == '\n') cs) hcs
        have ih := splitSepF_eq_splitNlRunsF fuel (cs.dropWhile fun d => d == '\n') hdlen
          (goodPairs_dropWhile (fun d => d == '\n') cs htail)
        rw [splitSepF, splitNlRunsF, hsep]
        simp [List.isEmpty_iff, hrun, ih]
    · have hcb : (c == '\n') = false := by
        simpa using hc
      have ih := splitSepF_eq_splitNlRunsF fuel cs hcs htail
      rw [splitSepF, splitNlRunsF, ih]
      simp [hcb]

theorem splitPasted_eq_spec_of_goodPairs (s : String) (h : goodPairs s.data = true) :
    splitPastedStr s = specSplitPastedStr s := by
  unfold splitPastedStr specSplitPastedStr splitPastedChars splitSep splitNlRuns
  rw [splitSepF_eq_splitNlRunsF s.data.length s.data le_rfl h]

theorem splitPastedChars_units {l u : List Char} (hu : u ∈ splitPastedChars l) :
    u ≠ [] ∧ ∀ c ∈ u, c ≠ '\n' := by
  unfold splitPastedChars at hu
  have h1 := List.of_mem_filter hu
  have h2 := List.mem_of_mem_filter hu
  obtain ⟨v, _, rfl⟩ := List.mem_map.1 h2
  refine ⟨by simpa [List.isEmpty_iff] using h1, ?_⟩
  intro c hc
  obtain ⟨d, _, rfl⟩ := List.mem_map.1 hc
  by_cases hd : (d == '\n') = true
  · simp [hd]
  · simp only [Bool.not_eq_true] at hd
    simp [hd]
    simpa using hd

theorem pasteBranch_not_submitted (st : FormState) (resp : HttpOutcome BatchData)
    (h : (pasteBranch st resp).submitted = none) :
    (pasteBranch st resp).state.questions = st.questions ∧
    (pasteBranch st resp).state.pastedQuestions = st.pastedQuestions ∧
    (pasteBranch st resp).state.file = st.file ∧
    ∃ e, (pasteBranch st resp).state.error = some e := by
  by_cases hempty : (splitPastedStr st.pastedQuestions).isEmpty = true
  · simp [pasteBranch, hempty]
  · cases resp with
    | ok d => exact absurd h (by simp [pasteBranch, hempty])
    | fail de msg => simp [pasteBranch, hempty]

theorem manualBranch_not_submitted (st : FormState) (resp : HttpOutcome BatchData)
    (h : (manualBranch st resp).submitted = none) :
    (manualBranch st resp).state.questions = st.questions ∧
    (manualBranch st resp).state.pastedQuestions = st.pastedQuestions ∧
    (manualBranch st resp).state.file = st.file ∧
    ∃ e, (manualBranch st resp).state.error = some e := by
  by_cases hempty : (st.questions.filter fun q => strTrim q != "").isEmpty = true
  · simp [manualBranch, hempty]
  · cases resp with
    | ok d => exact absurd h (by simp [manualBranch, hempty])
    | fail de msg => simp [manualBranch, hempty]

theorem pasteBranch_fail (st : FormState) (de : Option String) (msg : String)
    (h : (splitPastedStr st.pastedQuestions).isEmpty = false) :
    (pasteBranch st (.fail de msg)).state.questions = st.questions ∧
    (pasteBranch st (.fail de msg)).state.pastedQuestions = st.pastedQuestions ∧
    (pasteBranch st (.fail de msg)).state.file = st.file ∧
    (pasteBranch st (.fail de msg)).state.error = some (catchError de msg) := by
  simp [pasteBranch, h]

theorem manualBranch_fail (st : FormState) (de : Option String) (msg : String)
    (h : (st.questions.filter fun q => strTrim q != "").isEmpty = false) :
    (manualBranch st (.fail de msg)).state.questions = st.questions ∧
    (manualBranch st (.fail de msg)).state.pastedQuestions = st.pastedQuestions ∧
    (manualBranch st (.fail de msg)).state.file = st.file ∧
    (manualBranch st (.fail de msg)).state.error = some (catchError de msg) := by
  simp [manualBranch, h]

theorem pasteBranch_empty_request (st : FormState) (resp : HttpOutcome BatchData)
    (h : (splitPastedStr st.pastedQuestions).isEmpty = true) :
    (pasteBranch st resp).request = none := by
  simp [pasteBranch, h]

theorem manualBranch_empty_request (st : FormState) (resp : HttpOutcome BatchData)
    (h : (st.questions.filter fun q => strTrim q != "").isEmpty = true) :
    (manualBranch st resp).request = none := by
  simp [manualBranch, h]

/-! ## Claim theorems -/

/-- C1, counterexample. The claim says pasted text is split exactly at
runs of two or more consecutive line breaks. The code splits with
`/\n\s*\n/`, which also fires when the two line breaks are separated by
other whitespace: on the input `"A\n \nB"` (one space between the two
breaks, so no two consecutive breaks occur) the code produces the two
units `"A"` and `"B"`, while the claimed splitter produces the single
unit `"A   B"`. -/
theorem C1_split_counterexample :
    splitPastedStr "A\n \nB" = ["A", "B"] ∧
    specSplitPastedStr "A\n \nB" = ["A   B"] ∧
    splitPastedStr "A\n \nB" ≠ specSplitPastedStr "A\n \nB" :=
  ⟨by decide, by decide, by decide⟩

/-- C1, amended. Pasting `"Q1 line A\nline B\n\nQ2"` yields exactly
`["Q1 line A line B", "Q2"]`; and on every pasted block in which no line
break is adjacent to a non-line-break whitespace character, submission
splits exactly at runs of two or more consecutive line breaks, the units
are trimmed, interior line breaks become single spaces, and empty units
are dropped (in general the separator is a line break followed by
optional whitespace and another line break). -/
theorem C1_paste_split :
    splitPastedStr "Q1 line A\nline B\n\nQ2" = ["Q1 line A line B", "Q2"] ∧
    ∀ s : String, goodPairs s.data = true → splitPastedStr s = specSplitPastedStr s :=
  ⟨by decide, fun s h => splitPasted_eq_spec_of_goodPairs s h⟩

/-- Witness for `C1_paste_split` at the spec's example input. -/
theorem C1_paste_split_witness :
    goodPairs "Q1 line A\nline B\n\nQ2".data = true ∧
    splitPastedStr "Q1 line A\nline B\n\nQ2" =
      specSplitPastedStr "Q1 line A\nline B\n\nQ2" :=
  ⟨by decide, C1_paste_split.2 "Q1 line A\nline B\n\nQ2" (by decide)⟩

/-- C10. Every element of the question list produced by the paste
pipeline is a non-empty string containing no newline character (empty
units from leading, trailing or repeated separators are dropped before
submission), and if the pipeline produces no unit the paste branch sends
no request and raises the validation error. -/
theorem C10_paste_units :
    (∀ (s q : String), q ∈ splitPastedStr s → q ≠ "" ∧ ∀ c ∈ q.data, c ≠ '\n') ∧
    (∀ (st : FormState) (resp : HttpOutcome BatchData),
      splitPastedStr st.pastedQuestions = [] →
      (pasteBranch st resp).request = none ∧
      (pasteBranch st resp).state.error =
        some "Please enter at least one valid question, separated by double newlines.") := by
  constructor
  · intro s q hq
    unfold splitPastedStr at hq
    obtain ⟨u, hu, rfl⟩ := List.mem_map.1 hq
    obtain ⟨hne, hnl⟩ := splitPastedChars_units hu
    refine ⟨fun hh => hne ?_, hnl⟩
    simpa using congrArg String.data hh
  · intro st resp h
    have hempty : (splitPastedStr st.pastedQuestions).isEmpty = true := by
      simp [h]
    simp [pasteBranch, hempty, catchError, jsOrOpt, jsOrStr]

/-- Witness for `C10_paste_units`: a concrete unit of a concrete paste,
and the guard firing on an all-blank paste. -/
theorem C10_paste_units_witness :
    ("Q1" ≠ "" ∧ ∀ c ∈ "Q1".data, c ≠ '\n') ∧
    ((pasteBranch ⟨[""], " \n ", none, none⟩ (.ok ⟨[]⟩)).request = none ∧
      (pasteBranch ⟨[""], " \n ", none, none⟩ (.ok ⟨[]⟩)).state.error =
        some "Please enter at least one valid question, separated by double newlines.") :=
  ⟨C10_paste_units.1 "Q1\n\nQ2" "Q1" (by decide),
   C10_paste_units.2 ⟨[""], " \n ", none, none⟩ (.ok ⟨[]⟩) (by decide)⟩

/-- C8. When no file is selected, every manual field is blank after
trimming and the pasted block is blank after trimming, triggering
submission issues no HTTP request and sets the validation message. -/
theorem C8_empty_submission (st : FormState) (srv : Server)
    (hf : st.file = none) (hp : strTrim st.pastedQuestions = "")
    (hq : ∀ q ∈ st.questions, strTrim q = "") :
    (handleSubmit st srv).request = none ∧
    (handleSubmit st srv).state.error =
      some "Please enter at least one question, paste questions, or upload a file." := by
  have hfil : (st.questions.filter fun q => strTrim q != "") = [] := by
    rw [List.filter_eq_nil_iff]
    intro q hqmem
    simp [hq q hqmem]
  have hempty : (st.questions.filter fun q => strTrim q != "").isEmpty = true := by
    simp [hfil]
  simp [handleSubmit, hf, hp, manualBranch, hempty, catchError, jsOrOpt, jsOrStr]

/-- Witness for `C8_empty_submission` on a concrete all-blank state. -/
theorem C8_empty_submission_witness :
    (handleSubmit ⟨["", " "], " ", none, none⟩ ⟨.ok ⟨true, none, []⟩, .ok ⟨[]⟩⟩).request =
      none ∧
    (handleSubmit ⟨["", " "], " ", none, none⟩ ⟨.ok ⟨true, none, []⟩, .ok ⟨[]⟩⟩).state.error =
      some "Please enter at least one question, paste questions, or upload a file." :=
  C8_empty_submission ⟨["", " "], " ", none, none⟩ ⟨.ok ⟨true, none, []⟩, .ok ⟨[]⟩⟩
    rfl (by decide) (by decide)

/-- C7. A selected file whose declared MIME type is not in the
spreadsheet allow-list is rejected: the type-specific message is
surfaced, the file state is set to `none`, and the input's selection is
cleared — in particular for declared type `text/plain`. -/
theorem C7_file_type_rejected (file0 : Option FileSel) (error0 : Option String)
    (f : FileSel) (h : allowedTypes.contains f.type = false) :
    handleFileChange file0 error0 (some f) = ⟨none, some excelTypeError, true⟩ ∧
    excelTypeError = "Please upload an Excel file (.xls, .xlsx)." ∧
    ∀ n : String, handleFileChange file0 error0 (some ⟨n, "text/plain"⟩) =
      ⟨none, some excelTypeError, true⟩ := by
  refine ⟨?_, rfl, fun n => ?_⟩
  · simp only [handleFileChange]
    rw [h]
    simp
  · simp [handleFileChange, allowedTypes]

/-- Witness for `C7_file_type_rejected` at a concrete `text/plain` file. -/
theorem C7_file_type_rejected_witness :
    handleFileChange (some ⟨"old.xlsx", "application/vnd.ms-excel"⟩) none
        (some ⟨"a.txt", "text/plain"⟩) =
      ⟨none, some excelTypeError, true⟩ :=
  (C7_file_type_rejected (some ⟨"old.xlsx", "application/vnd.ms-excel"⟩) none
    ⟨"a.txt", "text/plain"⟩ (by decide)).1

/-- C2, counterexample. The claim says every failing submission leaves
the user's input unchanged. When a file upload returns an `ok` response
whose payload indicates failure (`success: false`), the code surfaces
the server's `error` field but then calls `resetForm()`, clearing the
selected file: the input is not left unchanged. -/
theorem C2_upload_reset_counterexample :
    (handleSubmit ⟨[""], "", some ⟨"qs.xlsx", "application/vnd.ms-excel"⟩, none⟩
        ⟨.ok ⟨false, some "boom", []⟩, .ok ⟨[]⟩⟩).state.error = some "boom" ∧
    (handleSubmit ⟨[""], "", some ⟨"qs.xlsx", "application/vnd.ms-excel"⟩, none⟩
        ⟨.ok ⟨false, some "boom", []⟩, .ok ⟨[]⟩⟩).state.file = none ∧
    (⟨[""], "", some ⟨"qs.xlsx", "application/vnd.ms-excel"⟩, none⟩ : FormState).file ≠
      none :=
  ⟨by decide, by decide, by decide⟩

/-- C2, amended. On an HTTP failure of the upload request the form
keeps all input and shows `err.response?.data?.error || err.message ||
'An error occurred'`; on an HTTP failure of a `/check-batch` call that
was actually issued the form likewise keeps all input and shows the same
error expression; a present non-empty server `error` field is thus shown
verbatim; every non-successful submission without a file keeps the
input and shows some error; but when an upload response's payload
indicates failure (`success: false`), the error is surfaced and the
form is then reset, clearing the input. -/
theorem C2_failure_handling :
    (∀ (st : FormState) (srv : Server) (f : FileSel) (de : Option String) (msg : String),
      st.file = some f → srv.uploadResp = .fail de msg →
      (handleSubmit st srv).state.questions = st.questions ∧
      (handleSubmit st srv).state.pastedQuestions = st.pastedQuestions ∧
      (handleSubmit st srv).state.file = st.file ∧
      (handleSubmit st srv).state.error = some (catchError de msg)) ∧
    (∀ (st : FormState) (srv : Server) (de : Option String) (msg : String),
      st.file = none → srv.batchResp = .fail de msg →
      (handleSubmit st srv).request ≠ none →
      (handleSubmit st srv).state.questions = st.questions ∧
      (handleSubmit st srv).state.pastedQuestions = st.pastedQuestions ∧
      (handleSubmit st srv).state.file = none ∧
      (handleSubmit st srv).state.error = some (catchError de msg)) ∧
    (∀ (st : FormState) (srv : Server),
      st.file = none → (handleSubmit st srv).submitted = none →
      (handleSubmit st srv).state.questions = st.questions ∧
      (handleSubmit st srv).state.pastedQuestions = st.pastedQuestions ∧
      (handleSubmit st srv).state.file = none ∧
      ∃ e, (handleSubmit st srv).state.error = some e) ∧
    (∀ (de : Option String) (msg e : String), de = some e → e ≠ "" →
      catchError de msg = e) ∧
    (∀ (st : FormState) (srv : Server) (f : FileSel) (d : UploadData),
      st.file = some f → srv.uploadResp = .ok d → d.success = false →
      (handleSubmit st srv).state.questions = [""] ∧
      (handleSubmit st srv).state.pastedQuestions = "" ∧
      (handleSubmit st srv).state.file = none ∧
      (handleSubmit st srv).state.error =
        some (jsOrOpt d.error "An error occurred while processing the file.")) := by
  refine ⟨?_, ?_, ?_, ?_, ?_⟩
  · intro st srv f de msg hf hresp
    simp [handleSubmit, hf, hresp, fileBranch]
  · intro st srv de msg hf hresp hreq
    by_cases hp : (strTrim st.pastedQuestions != "") = true
    · have hred : handleSubmit st srv = pasteBranch { st with error := none } srv.batchResp := by
        simp [handleSubmit, hf, hp]
      rw [hred] at hreq ⊢
      rw [hresp] at hreq ⊢
      by_cases he : (splitPastedStr st.pastedQuestions).isEmpty = true
      · exact absurd (pasteBranch_empty_request { st with error := none } _ he) hreq
      · have he' : (splitPastedStr st.pastedQuestions).isEmpty = false := by
          simpa using he
        have := pasteBranch_fail { st with error := none } de msg he'
        simpa [hf] using this
    · have hp' : (strTrim st.pastedQuestions != "") = false := by
        simpa using hp
      have hred : handleSubmit st srv = manualBranch { st with error := none } srv.batchResp := by
        simp [handleSubmit, hf, hp']
      rw [hred] at hreq ⊢
      rw [hresp] at hreq ⊢
      by_cases he : (st.questions.filter fun q => strTrim q != "").isEmpty = true
      · exact absurd (manualBranch_empty_request { st with error := none } _ he) hreq
      · have he' : (st.questions.filter fun q => strTrim q != "").isEmpty = false := by
          simpa using he
        have := manualBranch_fail { st with error := none } de msg he'
        simpa [hf] using this
  · intro st srv hf hsub
    by_cases hp : (strTrim st.pastedQuestions != "") = true
    · have hred : handleSubmit st srv = pasteBranch { st with error := none } srv.batchResp := by
        simp [handleSubmit, hf, hp]
      rw [hred] at hsub ⊢
      simpa [hf] using pasteBranch_not_submitted { st with error := none } srv.batchResp hsub
    · have hp' : (strTrim st.pastedQuestions != "") = false := by
        simpa using hp
      have hred : handleSubmit st srv = manualBranch { st with error := none } srv.batchResp := by
        simp [handleSubmit, hf, hp']
      rw [hred] at hsub ⊢
      simpa [hf] using manualBranch_not_submitted { st with error := none } srv.batchResp hsub
  · intro de msg e hde he
    subst hde
    simp [catchError, jsOrOpt, jsOrStr, he]
  · intro st srv f d hf hresp hsucc
    simp [handleSubmit, hf, hresp, fileBranch, hsucc, resetFormState]

/-- Witness for `C2_failure_handling`, one concrete instance per part:
an upload HTTP failure, a `/check-batch` HTTP failure with the verbatim
error shown, a validation failure, the verbatim `catchError` value, and
a `success:false` upload payload. -/
theorem C2_failure_handling_witness :
    (handleSubmit ⟨["typed"], "", some ⟨"a.xlsx", "application/vnd.ms-excel"⟩, none⟩
        ⟨.fail (some "down") "Request failed", .ok ⟨[]⟩⟩).state.file =
      (⟨["typed"], "", some ⟨"a.xlsx", "application/vnd.ms-excel"⟩, none⟩ : FormState).file ∧
    (handleSubmit ⟨["q"], "", none, none⟩
        ⟨.ok ⟨true, none, []⟩, .fail (some "busy") "Request failed"⟩).state.questions =
      (⟨["q"], "", none, none⟩ : FormState).questions ∧
    (handleSubmit ⟨["q"], "", none, none⟩
        ⟨.ok ⟨true, none, []⟩, .fail (some "busy") "Request failed"⟩).state.error =
      some (catchError (some "busy") "Request failed") ∧
    (handleSubmit ⟨[""], "", none, none⟩
        ⟨.ok ⟨true, none, []⟩, .ok ⟨[]⟩⟩).state.questions =
      (⟨[""], "", none, none⟩ : FormState).questions ∧
    catchError (some "busy") "Request failed" = "busy" ∧
    (handleSubmit ⟨[""], "", some ⟨"b.xlsx", "application/vnd.ms-excel"⟩, none⟩
        ⟨.ok ⟨false, some "bad file", []⟩, .ok ⟨[]⟩⟩).state.file = none :=
  ⟨(C2_failure_handling.1 ⟨["typed"], "", some ⟨"a.xlsx", "application/vnd.ms-excel"⟩, none⟩
      ⟨.fail (some "down") "Request failed", .ok ⟨[]⟩⟩
      ⟨"a.xlsx", "application/vnd.ms-excel"⟩ (some "down") "Request failed" rfl rfl).2.2.1,
   (C2_failure_handling.2.1 ⟨["q"], "", none, none⟩
      ⟨.ok ⟨true, none, []⟩, .fail (some "busy") "Request failed"⟩
      (some "busy") "Request failed" rfl rfl (by decide)).1,
   (C2_failure_handling.2.1 ⟨["q"], "", none, none⟩
      ⟨.ok ⟨true, none, []⟩, .fail (some "busy") "Request failed"⟩
      (some "busy") "Request failed" rfl rfl (by decide)).2.2.2,
   (C2_failure_handling.2.2.1 ⟨[""], "", none, none⟩
      ⟨.ok ⟨true, none, []⟩, .ok ⟨[]⟩⟩ rfl (by decide)).1,
   C2_failure_handling.2.2.2.1 (some "busy") "Request failed" "busy" rfl (by decide),
   (C2_failure_handling.2.2.2.2 ⟨[""], "", some ⟨"b.xlsx", "application/vnd.ms-excel"⟩, none⟩
      ⟨.ok ⟨false, some "bad file", []⟩, .ok ⟨[]⟩⟩
      ⟨"b.xlsx", "application/vnd.ms-excel"⟩ ⟨false, some "bad file", []⟩ rfl rfl rfl).2.2.1⟩

theorem enumFrom_filter_ne_of_lt (i : Nat) :
    ∀ (l : List String) (n : Nat), i < n →
      (List.enumFrom n l).filter (fun p => p.1 != i) = List.enumFrom n l
  | [], _, _ => rfl
  | a :: l, n, h => by
    rw [List.enumFrom_cons, List.filter_cons]
    have hne : (n != i) = true := by
      simp
      omega
    simp only [hne, if_pos rfl, if_true]
    rw [enumFrom_filter_ne_of_lt i l (n + 1) (Nat.lt_succ_of_lt h)]

theorem enumFrom_filter_ne_length_ge (i : Nat) :
    ∀ (l : List String) (n : Nat),
      l.length - 1 ≤ ((List.enumFrom n l).filter fun p => p.1 != i).length
  | [], _ => by simp
  | a :: l, n => by
    rw [List.enumFrom_cons, List.filter_cons]
    by_cases hni : n = i
    · subst hni
      have hkeep := enumFrom_filter_ne_of_lt n l (n + 1) (Nat.lt_succ_self n)
      simp only [bne_self_eq_false, Bool.false_eq_true, if_false]
      rw [hkeep, List.enumFrom_length]
      simp
    · have hne : (n != i) = true := by simpa using hni
      have ih := enumFrom_filter_ne_length_ge i l (n + 1)
      simp only [hne, if_true, List.length_cons]
      omega

theorem handleRemoveQuestion_length_le (qs : List String) (i : Nat) :
    (handleRemoveQuestion qs i).length ≤ qs.length := by
  unfold handleRemoveQuestion
  rw [List.length_map]
  calc ((qs.enum.filter fun p => p.1 != i)).length
      ≤ qs.enum.length := List.length_filter_le _ _
    _ = qs.length := List.enum_length

theorem handleRemoveQuestion_length_ge (qs : List String) (i : Nat) :
    qs.length - 1 ≤ (handleRemoveQuestion qs i).length := by
  unfold handleRemoveQuestion
  rw [List.length_map]
  exact enumFrom_filter_ne_length_ge i qs 0

theorem formStep_bounds {qs : List String} (h1 : 1 ≤ qs.length) (h5 : qs.length ≤ 5) :
    ∀ op : FormOp, 1 ≤ (formStep qs op).length ∧ (formStep qs op).length ≤ 5
  | .add => by
    simp only [formStep, handleAddQuestion]
    split
    · rw [List.length_append]
      simp only [List.length_cons, List.length_nil]
      omega
    · exact ⟨h1, h5⟩
  | .remove i => by
    simp only [formStep]
    split
    · have hge := handleRemoveQuestion_length_ge qs i
      have hle := handleRemoveQuestion_length_le qs i
      omega
    · exact ⟨h1, h5⟩

theorem runFormOps_bounds : ∀ (ops : List FormOp) (qs : List String),
    1 ≤ qs.length → qs.length ≤ 5 →
    1 ≤ (ops.foldl formStep qs).length ∧ (ops.foldl formStep qs).length ≤ 5
  | [], _, h1, h5 => ⟨h1, h5⟩
  | op :: ops, qs, h1, h5 => by
    rw [List.foldl_cons]
    obtain ⟨g1, g5⟩ := formStep_bounds h1 h5 op
    exact runFormOps_bounds ops _ g1 g5

/-- C3. Starting from the initial single empty field, after every
sequence of offered add/remove operations the number of manual question
fields stays between 1 and 5, and adding is a no-op when 5 fields
exist (removal is offered only while more than one field exists, which
is the guard in `formStep`). -/
theorem C3_field_count_bounds :
    (∀ ops : List FormOp,
      1 ≤ (runFormOps ops).length ∧ (runFormOps ops).length ≤ 5) ∧
    (∀ qs : List String, qs.length = 5 → handleAddQuestion qs = qs) := by
  constructor
  · intro ops
    exact runFormOps_bounds ops [""] (by decide) (by decide)
  · intro qs h
    unfold handleAddQuestion
    rw [if_neg (by omega)]

/-- Witness for `C3_field_count_bounds` on a concrete operation sequence
and a concrete full field list. -/
theorem C3_field_count_bounds_witness :
    (1 ≤ (runFormOps [.add, .add, .remove 0]).length ∧
      (runFormOps [.add, .add, .remove 0]).length ≤ 5) ∧
    handleAddQuestion ["a", "b", "c", "d", "e"] = ["a", "b", "c", "d", "e"] :=
  ⟨C3_field_count_bounds.1 [.add, .add, .remove 0],
   C3_field_count_bounds.2 ["a", "b", "c", "d", "e"] (by decide)⟩

theorem modeCount_le_one_pf (st : UiState) (hp : pastedNonblank st = false)
    (hf : st.file.isSome = false) : modeCount st ≤ 1 := by
  unfold modeCount
  rw [hp, hf]
  simp only [Bool.false_eq_true, if_false]
  split <;> simp

theorem modeCount_le_one_mf (st : UiState) (hm : manualNonblank st = false)
    (hf : st.file.isSome = false) : modeCount st ≤ 1 := by
  unfold modeCount
  rw [hm, hf]
  simp only [Bool.false_eq_true, if_false]
  split <;> simp

theorem modeCount_le_one_mp (st : UiState) (hm : manualNonblank st = false)
    (hp : pastedNonblank st = false) : modeCount st ≤ 1 := by
  unfold modeCount
  rw [hm, hp]
  simp only [Bool.false_eq_true, if_false]
  split <;> simp

theorem uiStep_modeCount {st : UiState} (h : modeCount st ≤ 1) (ev : UiEvent) :
    modeCount (uiStep st ev) ≤ 1 := by
  cases ev with
  | typeManual i v =>
    by_cases hd : isManualInputDisabled st = true
    · simpa [uiStep, hd] using h
    · have hd' : isManualInputDisabled st = false := by simpa using hd
      have hor := hd'
      simp only [isManualInputDisabled, Bool.or_eq_false_iff] at hor
      simp only [uiStep, hd', Bool.false_eq_true, if_false]
      exact modeCount_le_one_pf _ hor.2 hor.1
  | addQuestion =>
    by_cases hg : (st.file.isNone && strTrim st.pasted == "") = true
    · have hor : st.file.isNone = true ∧ (strTrim st.pasted == "") = true := by
        simpa [Bool.and_eq_true] using hg
      have hfe : st.file = none := by
        simpa [Option.isNone_iff_eq_none] using hor.1
      have hpe : strTrim st.pasted = "" := by simpa using hor.2
      have hf : ({ st with questions := handleAddQuestion st.questions } : UiState).file.isSome =
          false := by simp [hfe]
      have hp : pastedNonblank { st with questions := handleAddQuestion st.questions } = false := by
        simp [pastedNonblank, hpe]
      simp only [uiStep, hg, if_true]
      exact modeCount_le_one_pf _ hp hf
    · have hg' : (st.file.isNone && strTrim st.pasted == "") = false := by simpa using hg
      simpa [uiStep, hg'] using h
  | removeQuestion i =>
    by_cases hg : (!isManualInputDisabled st && decide (st.questions.length > 1)) = true
    · have hand := hg
      simp only [Bool.and_eq_true] at hand
      have hmd : isManualInputDisabled st = false := by simpa using hand.1
      simp only [isManualInputDisabled, Bool.or_eq_false_iff] at hmd
      simp only [uiStep, hg, if_true]
      exact modeCount_le_one_pf _ hmd.2 hmd.1
    · have hg' : (!isManualInputDisabled st && decide (st.questions.length > 1)) = false := by
        simpa using hg
      simp only [uiStep, hg', Bool.false_eq_true, if_false]
      exact h
  | typePasted v =>
    by_cases hd : isPastedInputDisabled st = true
    · simpa [uiStep, hd] using h
    · have hd' : isPastedInputDisabled st = false := by simpa using hd
      have hor := hd'
      simp only [isPastedInputDisabled, Bool.or_eq_false_iff] at hor
      simp only [uiStep, hd', Bool.false_eq_true, if_false]
      exact modeCount_le_one_mf _ hor.2 hor.1
  | clearPasted =>
    have hp : pastedNonblank { st with pasted := "" } = false := rfl
    cases hmb : manualNonblank st with
    | false => exact modeCount_le_one_mp _ hmb hp
    | true =>
      have hf : st.file.isSome = false := by
        cases hfb : st.file.isSome
        · rfl
        · exact absurd h (by simp [modeCount, hmb, hfb]; try omega)
      exact modeCount_le_one_pf _ hp hf
  | selectFile sel =>
    by_cases hd : isFileUploadDisabled st = true
    · simpa [uiStep, hd] using h
    · have hd' : isFileUploadDisabled st = false := by simpa using hd
      have hor := hd'
      simp only [isFileUploadDisabled, Bool.or_eq_false_iff] at hor
      simp only [uiStep, hd', Bool.false_eq_true, if_false]
      exact modeCount_le_one_mp _ hor.1 hor.2
  | removeFile =>
    have hf : ({ st with file := none } : UiState).file.isSome = false := rfl
    cases hmb : manualNonblank st with
    | false => exact modeCount_le_one_mf _ hmb hf
    | true =>
      have hp : pastedNonblank st = false := by
        cases hpb : pastedNonblank st
        · rfl
        · exact absurd h (by simp [modeCount, hmb, hpb]; try omega)
      exact modeCount_le_one_pf _ hp hf
  | submitReset => exact (by decide : modeCount ⟨[""], "", none⟩ ≤ 1)
  | submitFailed => exact h

/-- C4. In every reachable form state at most one of the three input
modes (manual fields, pasted block, selected file) is non-empty; and
each mode's controls are disabled as soon as another mode is non-empty,
exactly as the three disabled flags state. -/
theorem C4_mode_exclusivity :
    (∀ st : UiState, Reachable st → modeCount st ≤ 1) ∧
    (∀ st : UiState, st.file.isSome = true ∨ pastedNonblank st = true →
      isManualInputDisabled st = true) ∧
    (∀ st : UiState, manualNonblank st = true ∨ pastedNonblank st = true →
      isFileUploadDisabled st = true) ∧
    (∀ st : UiState, st.file.isSome = true ∨ manualNonblank st = true →
      isPastedInputDisabled st = true) := by
  refine ⟨?_, ?_, ?_, ?_⟩
  · intro st h
    induction h with
    | init => decide
    | step ev _ ih => exact uiStep_modeCount ih ev
  · intro st h
    rcases h with h | h <;> simp [isManualInputDisabled, h]
  · intro st h
    rcases h with h | h <;> simp [isFileUploadDisabled, h]
  · intro st h
    rcases h with h | h <;> simp [isPastedInputDisabled, h]

/-- Witness for `C4_mode_exclusivity`: the initial state is reachable
and satisfies the bound; the flags fire on concrete one-mode states. -/
theorem C4_mode_exclusivity_witness :
    modeCount initUiState ≤ 1 ∧
    isManualInputDisabled ⟨[""], "", some ⟨"a.xlsx", "application/vnd.ms-excel"⟩⟩ = true ∧
    isFileUploadDisabled ⟨["q"], "", none⟩ = true ∧
    isPastedInputDisabled ⟨["q"], "", none⟩ = true :=
  ⟨C4_mode_exclusivity.1 initUiState Reachable.init,
   C4_mode_exclusivity.2.1 ⟨[""], "", some ⟨"a.xlsx", "application/vnd.ms-excel"⟩⟩
     (Or.inl rfl),
   C4_mode_exclusivity.2.2.1 ⟨["q"], "", none⟩ (Or.inl (by decide)),
   C4_mode_exclusivity.2.2.2 ⟨["q"], "", none⟩ (Or.inr (by decide))⟩

theorem objGet_map_overwrite_ne (k2 : String) (v : CellVal) (k : String)
    (hne : (k2 == k) = false) :
    ∀ obj : List (String × CellVal),
      objGet (obj.map fun p => if p.1 == k2 then (p.1, v) else p) k = objGet obj k
  | [] => rfl
  | a :: obj => by
    have ih := objGet_map_overwrite_ne k2 v k hne obj
    unfold objGet at ih ⊢
    rw [List.map_cons, List.find?_cons, List.find?_cons]
    have hfst : (if a.1 == k2 then (a.1, v) else a).1 = a.1 := by
      split <;> rfl
    rw [hfst]
    by_cases hak : (a.1 == k) = true
    · have hak2 : (a.1 == k2) = false := by
        cases h2 : a.1 == k2
        · rfl
        · have e1 : a.1 = k := by simpa using hak
          have e2 : a.1 = k2 := by simpa using h2
          have : (k2 == k) = true := by simp [← e1, ← e2]
          rw [this] at hne
          cases hne
      simp only [hak, hak2, Bool.false_eq_true, if_false, if_true]
    · have hak' : (a.1 == k) = false := by simpa using hak
      simp only [hak', Bool.false_eq_true, if_false]
      exact ih

theorem objGet_append_single_ne (k2 : String) (v : CellVal) (k : String)
    (hne : (k2 == k) = false) :
    ∀ obj : List (String × CellVal), objGet (obj ++ [(k2, v)]) k = objGet obj k
  | [] => by
    unfold objGet
    rw [List.nil_append, List.find?_cons]
    simp [hne]
  | a :: obj => by
    have ih := objGet_append_single_ne k2 v k hne obj
    unfold objGet at ih ⊢
    rw [List.cons_append, List.find?_cons, List.find?_cons]
    by_cases hak : (a.1 == k) = true
    · simp only [hak, if_true]
    · have hak' : (a.1 == k) = false := by simpa using hak
      simp only [hak', Bool.false_eq_true, if_false]
      exact ih

theorem objGet_objSet_ne (obj : List (String × CellVal)) (k2 : String) (v : CellVal)
    (k : String) (hne : (k2 == k) = false) :
    objGet (objSet obj k2 v) k = objGet obj k := by
  unfold objSet
  split
  · exact objGet_map_overwrite_ne k2 v k hne obj
  · exact objGet_append_single_ne k2 v k hne obj

theorem objGet_objSpread_no_key :
    ∀ (kvs obj : List (String × CellVal)) (k : String),
      (∀ p ∈ kvs, (p.1 == k) = false) →
      objGet (objSpread obj kvs) k = objGet obj k
  | [], _, _, _ => rfl
  | p :: kvs, obj, k, h => by
    unfold objSpread
    rw [List.foldl_cons]
    have step := objGet_objSet_ne obj p.1 p.2 k (h p (List.mem_cons_self _ _))
    have rest := objGet_objSpread_no_key kvs (objSet obj p.1 p.2) k
      fun q hq => h q (List.mem_cons_of_mem _ hq)
    unfold objSpread at rest
    rw [rest, step]

theorem exportRow_question_cell (idx : Nat) (q : QuestionResult)
    (h : ∀ p ∈ q.rowData.getD [], (p.1 == "Question") = false) :
    objGet (exportRow idx q) "Question" = some (.str q.question) := by
  unfold exportRow
  rw [objGet_objSpread_no_key (q.rowData.getD []) _ "Question" h]
  rfl

/-- C5, counterexample. The claim says the client-side export of the
unique questions is plain text (N newline-joined lines). The only
client-side export in the source (`handleDownload`) builds an Excel
worksheet, not plain text: at a one-result input its content is a
spreadsheet and differs from the plain-text export the spec describes. -/
theorem C5_export_counterexample :
    (handleDownload [⟨"Q1", false, none, .undef, none⟩]).content =
      some (.spreadsheet "Unique Questions"
        [[("#", .num 1), ("Question", .str "Q1")]]) ∧
    specPlainTextExport [⟨"Q1", false, none, .undef, none⟩] = "Q1" ∧
    (handleDownload [⟨"Q1", false, none, .undef, none⟩]).content ≠
      some (.plainText (specPlainTextExport [⟨"Q1", false, none, .undef, none⟩])) :=
  ⟨by decide, by decide, by decide⟩

/-- C5, amended. For every result list with at least one unique
question, the client-side export produces a single "Unique Questions"
worksheet with exactly N rows, one per unique question in original
input order, built with no HTTP request and no download error; row `i`'s
`Question` cell holds unique question `i` provided that question's
`rowData` record contains no colliding `Question` key (the object
spread lets a `rowData` key overwrite the cell). -/
theorem C5_export_rows :
    ∀ results : List QuestionResult,
      uniqueQuestionsOf results ≠ [] →
      (handleDownload results).content =
        some (.spreadsheet "Unique Questions" (exportRows results)) ∧
      (exportRows results).length = (uniqueQuestionsOf results).length ∧
      (∀ i (h1 : i < (exportRows results).length)
        (h2 : i < (uniqueQuestionsOf results).length),
        (∀ p ∈ ((uniqueQuestionsOf results).get ⟨i, h2⟩).rowData.getD [],
          (p.1 == "Question") = false) →
        objGet ((exportRows results).get ⟨i, h1⟩) "Question" =
          some (.str ((uniqueQuestionsOf results).get ⟨i, h2⟩).question)) ∧
      (handleDownload results).request = none ∧
      (handleDownload results).downloadError = none := by
  intro results hne
  have hlen : ((uniqueQuestionsOf results).length == 0) = false := by
    simpa using hne
  refine ⟨?_, ?_, ?_, ?_, ?_⟩
  · simp only [handleDownload, hlen, Bool.false_eq_true, if_false]
  · rw [exportRows, List.length_map, List.enum_length]
  · intro i h1 h2 hrow
    have hget : (exportRows results).get ⟨i, h1⟩ =
        exportRow i ((uniqueQuestionsOf results).get ⟨i, h2⟩) := by
      unfold exportRows
      rw [List.get_eq_getElem, List.getElem_map]
      simp [List.getElem_enum, List.get_eq_getElem]
    rw [hget]
    exact exportRow_question_cell i _ hrow
  · simp only [handleDownload, hlen, Bool.false_eq_true, if_false]
  · simp only [handleDownload, hlen, Bool.false_eq_true, if_false]

/-- Witness for `C5_export_rows` on a list with one duplicate and a
unique question carrying a non-colliding `rowData` record. -/
theorem C5_export_rows_witness :
    uniqueQuestionsOf [⟨"Q1", false, none, .undef, some [("Topic", .str "geo")]⟩,
        ⟨"Q2", true, some "Q1", .null, none⟩] ≠ [] ∧
    (handleDownload [⟨"Q1", false, none, .undef, some [("Topic", .str "geo")]⟩,
        ⟨"Q2", true, some "Q1", .null, none⟩]).content =
      some (.spreadsheet "Unique Questions"
        (exportRows [⟨"Q1", false, none, .undef, some [("Topic", .str "geo")]⟩,
          ⟨"Q2", true, some "Q1", .null, none⟩])) ∧
    objGet ((exportRows [⟨"Q1", false, none, .undef, some [("Topic", .str "geo")]⟩,
        ⟨"Q2", true, some "Q1", .null, none⟩]).get ⟨0, by decide⟩) "Question" =
      some (.str "Q1") ∧
    (handleDownload [⟨"Q1", false, none, .undef, some [("Topic", .str "geo")]⟩,
        ⟨"Q2", true, some "Q1", .null, none⟩]).request = none := by
  refine ⟨by decide, ?_, ?_, ?_⟩
  · exact (C5_export_rows [⟨"Q1", false, none, .undef, some [("Topic", .str "geo")]⟩,
      ⟨"Q2", true, some "Q1", .null, none⟩] (by decide)).1
  · exact (C5_export_rows [⟨"Q1", false, none, .undef, some [("Topic", .str "geo")]⟩,
      ⟨"Q2", true, some "Q1", .null, none⟩] (by decide)).2.2.1 0 (by decide) (by decide)
      (by decide)
  · exact (C5_export_rows [⟨"Q1", false, none, .undef, some [("Topic", .str "geo")]⟩,
      ⟨"Q2", true, some "Q1", .null, none⟩] (by decide)).2.2.2.1

/-- C6, counterexample. The claim says a `null` similarity score falls
back to "N/A". At the similar-questions notification the code only
checks `!== undefined`, so a `null` score passes the check, is coerced
to `0` by the multiplication, and renders as "0.00%", not "N/A". -/
theorem C6_null_score_counterexample :
    notifScoreLabel ScoreVal.null = "0.00%" ∧
    notifScoreLabel ScoreVal.null ≠ "N/A" := by
  have h : ⌊((0 : ℚ) * 100) * 100 + 1 / 2⌋ = (0 : ℤ) := by
    rw [Int.floor_eq_iff]
    constructor <;> norm_num
  have h0 : notifScoreLabel ScoreVal.null = "0.00%" := by
    simp only [notifScoreLabel, toFixed2, h]
    rfl
  exact ⟨h0, by rw [h0]; decide⟩

/-- C6, amended. The renderer is total and tolerates missing fields: a
null `mostSimilarQuestion` falls back to "another question"; an absent
(`undefined`) score renders "N/A" at both render sites; a `null` score
renders "N/A" in the analysis table but "0.00%" in the notification
(where only `!== undefined` is checked and `null` is coerced to 0); and
the notification renders exactly one line per duplicate result. -/
theorem C6_missing_fields_tolerated :
    (∀ r : QuestionResult, r.mostSimilarQuestion = none →
      mostSimilarLabel r = "another question") ∧
    notifScoreLabel ScoreVal.undef = "N/A" ∧
    tableScoreLabel ScoreVal.undef = "N/A" ∧
    tableScoreLabel ScoreVal.null = "N/A" ∧
    notifScoreLabel ScoreVal.null = "0.00%" ∧
    (∀ results : List QuestionResult,
      (renderNotifLines results).length =
        (results.filter fun r => r.isDuplicate).length) := by
  refine ⟨?_, rfl, rfl, rfl, ?_, ?_⟩
  · intro r hr
    simp [mostSimilarLabel, hr]
  · have h : ⌊((0 : ℚ) * 100) * 100 + 1 / 2⌋ = (0 : ℤ) := by
      rw [Int.floor_eq_iff]
      constructor <;> norm_num
    simp only [notifScoreLabel, toFixed2, h]
    rfl
  · intro results
    unfold renderNotifLines
    rw [List.length_map]

/-- Witness for `C6_missing_fields_tolerated` at a result with a null
`mostSimilarQuestion`. -/
theorem C6_missing_fields_tolerated_witness :
    mostSimilarLabel ⟨"Q2", true, none, .undef, none⟩ = "another question" :=
  C6_missing_fields_tolerated.1 ⟨"Q2", true, none, .undef, none⟩ rfl

theorem pad2_length_two : ∀ m : Nat, m < 100 → (pad2 m).length = 2 := by decide

/-- C9. A present similarity score renders as the score multiplied by
100, formatted with exactly two decimal digits and a trailing percent
sign, at both render sites; in particular 0.8734 renders as "87.34%". -/
theorem C9_score_formatting :
    tableScoreLabel (.num (8734 / 10000)) = "87.34%" ∧
    notifScoreLabel (.num (8734 / 10000)) = "87.34%" ∧
    ∀ q : ℚ, ∃ w f : String,
      tableScoreLabel (.num q) = w ++ "." ++ f ++ "%" ∧ f.length = 2 := by
  have h : ⌊(((8734 : ℚ) / 10000) * 100) * 100 + 1 / 2⌋ = (8734 : ℤ) := by
    rw [Int.floor_eq_iff]
    constructor <;> norm_num
  refine ⟨?_, ?_, ?_⟩
  · simp only [tableScoreLabel, toFixed2, h]
    rfl
  · simp only [notifScoreLabel, toFixed2, h]
    rfl
  · intro q
    refine ⟨toString ((⌊q * 100 * 100 + 1 / 2⌋).toNat / 100),
      pad2 ((⌊q * 100 * 100 + 1 / 2⌋).toNat % 100), rfl, ?_⟩
    exact pad2_length_two _ (Nat.mod_lt _ (by norm_num))

end DupUI
